import Mathlib

/-!
# Verification of the jarvis chat client's streaming core

This development is a shallow embedding of `src/static/js/app.js`: the
SSE frame decoder, the event-classification chain inside `send`'s read
loop, the per-exchange streaming session state, the message
reconciliation helper `addRemoveButton`, and the composer-side guard at
the top of `send`.  JavaScript strings are modelled as Lean `String`
(the `TextDecoder` byte-to-text step is abstracted: chunk boundaries are
taken at character granularity), JSON values as an inductive `Json`
with JavaScript truthiness, absent object fields as `Option.none`, and
the DOM bits the specification talks about (visibility, collapsed
state, attached remove buttons) as explicit fields of a state record.
-/

/-- A JSON value, as produced by `JSON.parse`.  Used for the fields the
code only tests for truthiness (`searching`, `done`, `error`, the
timestamps). -/
inductive Json where
  | null
  | bool (b : Bool)
  | num (n : Int)
  | str (s : String)
  | arr (elems : List Json)
  | obj (fields : List (String × Json))

/-- JavaScript truthiness of a JSON value: `null`, `false`, `0` and the
empty string are falsy; every other value (including empty arrays and
objects) is truthy. -/
def jsTruthy : Json → Bool
  | Json.null => false
  | Json.bool b => b
  | Json.num n => n != 0
  | Json.str s => s != ""
  | Json.arr _ => true
  | Json.obj _ => true

/-- Truthiness of a possibly-absent field: an absent field reads as
`undefined`, which is falsy. -/
def jsTruthyOpt : Option Json → Bool
  | none => false
  | some j => jsTruthy j

/-- Truthiness of a possibly-absent string-valued field. -/
def strTruthy : Option String → Bool
  | none => false
  | some s => s != ""

/-- The `image_result` object a `done` record may carry
(`event.image_result.generated_image_path` / `.image_base64`). -/
structure ImageResult where
  generated_image_path : Option String := none
  image_base64 : Option String := none

/-- A decoded JSON record from one SSE frame.  Fields consumed as data
are typed per the wire contract (strings, string lists); fields the
code only tests for truthiness keep the raw `Json` value.  `none`
models an absent field. -/
structure EventRecord where
  searching : Option Json := none
  thinking : Option String := none
  token : Option String := none
  done : Option Json := none
  final : Option String := none
  error : Option Json := none
  sources : Option (List String) := none
  image_result : Option ImageResult := none
  user_timestamp : Option Json := none
  assistant_timestamp : Option Json := none

/-- The mutable state of one streaming exchange inside `send`: the
local variables of the read loop (`fullText`, `sources`,
`generatedImageBase64`, `generatedImagePath`, `showingThinking`,
`hasAnyThinking`) together with the DOM state the claims mention:
`thinkingText` is `thinkingText.textContent`, `thinkingCollapsed` the
`collapsed` class on the thinking section, `thinkingHidden` whether
`thinkingSection.style.display` is `"none"`, `responseVisible` whether
`responseDiv` is displayed, `responseError` the `error` class on it. -/
structure SessionState where
  fullText : String
  thinkingText : String
  sources : List String
  generatedImageBase64 : Option String
  generatedImagePath : Option String
  showingThinking : Bool
  hasAnyThinking : Bool
  thinkingCollapsed : Bool
  thinkingHidden : Bool
  responseVisible : Bool
  responseError : Bool

/-- The state as set up just before the read loop in `send`
(lines 196–228): empty buffers, thinking section shown and expanded,
response hidden. -/
def initState : SessionState :=
  { fullText := ""
    thinkingText := ""
    sources := []
    generatedImageBase64 := none
    generatedImagePath := none
    showingThinking := true
    hasAnyThinking := false
    thinkingCollapsed := false
    thinkingHidden := false
    responseVisible := false
    responseError := false }

/-- The body of the `else if (event.done)` branch of the read loop
(app.js lines 275–298): overwrite `fullText` with `final` when present,
store the generated-image reference (path preferred over base64), flag
an error, store `sources` (`event.sources || []`), and hide the
thinking section when nothing thinking-related was ever shown. -/
def doneStep (s : SessionState) (e : EventRecord) : SessionState :=
  let s1 :=
    match e.final with
    | some f => { s with fullText := f, responseVisible := true }
    | none => s
  let s2 :=
    match e.image_result with
    | some ir =>
        if strTruthy ir.generated_image_path then
          { s1 with generatedImagePath := ir.generated_image_path }
        else if strTruthy ir.image_base64 then
          { s1 with generatedImageBase64 := ir.image_base64 }
        else s1
    | none => s1
  let s3 := if jsTruthyOpt e.error then { s2 with responseError := true } else s2
  let s4 := { s3 with sources := e.sources.getD [] }
  if !s4.hasAnyThinking then { s4 with thinkingHidden := true } else s4

/-- One pass through the `if/else if` chain of `send`'s read loop
(app.js lines 246–299), as a state transformer on the session state.
Each branch is a direct transcription of the corresponding JavaScript
branch; DOM scrolling and the global "Thinking..." indicator are pure
presentation and are not modelled. -/
def processEvent (s : SessionState) (e : EventRecord) : SessionState :=
  if jsTruthyOpt e.searching then
    { s with thinkingText := s.thinkingText ++ "Searching the web...\n\n"
             hasAnyThinking := true }
  else if e.thinking.isSome then
    if s.showingThinking then
      { s with hasAnyThinking := true
               thinkingText := s.thinkingText ++ e.thinking.getD "" }
    else s
  else if e.token.isSome then
    if s.showingThinking then
      { s with showingThinking := false
               thinkingCollapsed := true
               responseVisible := true
               fullText := e.token.getD "" }
    else
      { s with responseVisible := true
               fullText := s.fullText ++ e.token.getD "" }
  else if jsTruthyOpt e.done then
    doneStep s e
  else s

/-- Run one session over a list of decoded records, from the loop's
initial state. -/
def runSession (evs : List EventRecord) : SessionState :=
  evs.foldl processEvent initState

/-- Record classified by the chain as a `searching` event
(`event.searching` truthy). -/
def isSearchingEv (e : EventRecord) : Bool :=
  jsTruthyOpt e.searching

/-- Record classified by the chain as a `thinking` event
(`event.thinking !== undefined`, not shadowed by `searching`). -/
def isThinkingEv (e : EventRecord) : Bool :=
  !jsTruthyOpt e.searching && e.thinking.isSome

/-- Record classified by the chain as a `token` event. -/
def isTokenEv (e : EventRecord) : Bool :=
  !jsTruthyOpt e.searching && e.thinking.isNone && e.token.isSome

/-- Record classified by the chain as a `done` event. -/
def isDoneEv (e : EventRecord) : Bool :=
  !jsTruthyOpt e.searching && e.thinking.isNone && e.token.isNone
    && jsTruthyOpt e.done

/-- The specification's `StreamEvent` tagged union (§3): exactly one
variant per decoded record.  The `done` variant carries the payload
fields the done branch of the loop reads. -/
inductive StreamEvent where
  | searching
  | thinking (delta : String)
  | token (text : String)
  | done (final : Option String) (error : Bool) (sources : List String)
      (image_result : Option ImageResult)
      (user_timestamp assistant_timestamp : Option Json)

/-- The Event Classifier of spec §4.2: precedence-ordered field checks
(`searching` truthy, else `thinking` present, else `token` present,
else `done` truthy, else no event). -/
def classify (e : EventRecord) : Option StreamEvent :=
  if jsTruthyOpt e.searching then some StreamEvent.searching
  else
    match e.thinking with
    | some d => some (StreamEvent.thinking d)
    | none =>
      match e.token with
      | some t => some (StreamEvent.token t)
      | none =>
        if jsTruthyOpt e.done then
          some (StreamEvent.done e.final (jsTruthyOpt e.error)
            (e.sources.getD []) e.image_result e.user_timestamp
            e.assistant_timestamp)
        else none

/-- The Stream Session transition function of spec §4.3, acting on a
classified event.  Together with `classify` this is the spec's factored
view of the loop body; `processEvent_eq_classify_apply` shows it agrees
with the code's monolithic chain. -/
def applyEvent (s : SessionState) : StreamEvent → SessionState
  | StreamEvent.searching =>
      { s with thinkingText := s.thinkingText ++ "Searching the web...\n\n"
               hasAnyThinking := true }
  | StreamEvent.thinking d =>
      if s.showingThinking then
        { s with hasAnyThinking := true
                 thinkingText := s.thinkingText ++ d }
      else s
  | StreamEvent.token t =>
      if s.showingThinking then
        { s with showingThinking := false
                 thinkingCollapsed := true
                 responseVisible := true
                 fullText := t }
      else
        { s with responseVisible := true
                 fullText := s.fullText ++ t }
  | StreamEvent.done final error srcs ir _ _ =>
      let s1 :=
        match final with
        | some f => { s with fullText := f, responseVisible := true }
        | none => s
      let s2 :=
        match ir with
        | some r =>
            if strTruthy r.generated_image_path then
              { s1 with generatedImagePath := r.generated_image_path }
            else if strTruthy r.image_base64 then
              { s1 with generatedImageBase64 := r.image_base64 }
            else s1
        | none => s1
      let s3 := if error then { s2 with responseError := true } else s2
      let s4 := { s3 with sources := srcs }
      if !s4.hasAnyThinking then { s4 with thinkingHidden := true } else s4

/-! ## Frame Decoder

The read loop keeps a text buffer, appends each decoded chunk, splits
on the blank-line separator `"\n\n"` and puts the last (possibly
partial) fragment back into the buffer:

    buffer += decoder.decode(chunk.value, { stream: true });
    var parts = buffer.split("\n\n");
    buffer = parts.pop() || "";

Text is modelled as `List Char`.  `splitFrames` returns the complete
frames (everything `split` produced except the last fragment) together
with the retained trailing fragment, scanning greedily left to right
exactly as `String.prototype.split` with a non-empty separator does. -/

/-- Prepend a character to the first complete frame of a decoder
result, or to the trailing fragment when no frame is complete. -/
def consFrame (c : Char) : List (List Char) × List Char → List (List Char) × List Char
  | ([], t) => ([], c :: t)
  | (f :: fs, t) => ((c :: f) :: fs, t)

/-- Split a buffer on the `"\n\n"` frame separator: complete frames in
order, plus the trailing partial fragment (`parts.pop() || ""`). -/
def splitFrames : List Char → List (List Char) × List Char
  | [] => ([], [])
  | '\n' :: '\n' :: rest => (([] : List Char) :: (splitFrames rest).1, (splitFrames rest).2)
  | c :: rest => consFrame c (splitFrames rest)

/-- One iteration of the read loop's buffering step: append the chunk
to the buffer, emit the complete frames, retain the tail. -/
def feedChunk (st : List (List Char) × List Char) (chunk : List Char) :
    List (List Char) × List Char :=
  ((st.1 ++ (splitFrames (st.2 ++ chunk)).1), (splitFrames (st.2 ++ chunk)).2)

/-- Feed a whole sequence of chunks through the decoder, starting from
an empty buffer (`var buffer = ""`). -/
def decodeStream (chunks : List (List Char)) : List (List Char) × List Char :=
  chunks.foldl feedChunk ([], [])

/-! ## Frame-level processing

Each complete frame is trimmed; only frames starting with `"data: "`
are parsed (`JSON.parse(line.slice(6))`); a parse failure is caught,
logged and the frame skipped.  `JSON.parse` is a platform primitive, so
the processing step is parameterised by a partial parse function. -/

/-- `String.prototype.trim`: strip leading and trailing whitespace.
Implemented structurally over the character list so that concrete
frames evaluate inside the kernel. -/
def jsTrim (s : String) : String :=
  ⟨((s.data.dropWhile Char.isWhitespace).reverse.dropWhile
      Char.isWhitespace).reverse⟩

/-- Processing of one complete frame (app.js lines 242–303):
trim, check the `"data: "` prefix (`line.startsWith`), parse the
payload after the 6-character prefix (`line.slice(6)`), and on success
run the event chain; parse failure (`none`, the caught `JSON.parse`
exception) or a non-`data:` line leaves the session state untouched. -/
def processFrame (parse : String → Option EventRecord)
    (s : SessionState) (part : String) : SessionState :=
  let line := jsTrim part
  if line.data.take 6 = "data: ".data then
    match parse ⟨line.data.drop 6⟩ with
    | some e => processEvent s e
    | none => s
  else s

/-- Processing of a list of complete frames in order. -/
def processFrames (parse : String → Option EventRecord)
    (s : SessionState) (parts : List String) : SessionState :=
  parts.foldl (processFrame parse) s

/-! ## Message reconciliation (`addRemoveButton`) -/

/-- A rendered message element, reduced to what `addRemoveButton`
touches: the `data-memory-timestamp` attribute and the attached
`.message-remove` buttons (with the timestamp each one would delete). -/
structure MsgEl where
  memoryTimestamp : Option Json := none
  removeButtons : List Json := []

/-- `addRemoveButton(msgEl, timestamp)` (app.js lines 333–345): a falsy
timestamp or an already-present `.message-remove` button makes it a
no-op; otherwise it records the timestamp attribute and appends one
remove button. -/
def addRemoveButton (el : MsgEl) (timestamp : Json) : MsgEl :=
  if !jsTruthy timestamp || !el.removeButtons.isEmpty then el
  else
    { memoryTimestamp := some timestamp
      removeButtons := el.removeButtons ++ [timestamp] }

/-! ## Composer: submission guard and attachment staging -/

/-- Everything after the first comma, when one exists
(`dataUrl.indexOf(",")` then `slice(idx + 1)`). -/
def afterFirstComma : List Char → Option (List Char)
  | [] => none
  | ',' :: rest => some rest
  | _ :: rest => afterFirstComma rest

/-- `dataUrlToBase64` (app.js lines 113–116): everything after the
first comma, or the whole string when there is no comma. -/
def dataUrlToBase64 (dataUrl : String) : String :=
  match afterFirstComma dataUrl.data with
  | some rest => ⟨rest⟩
  | none => dataUrl

/-- Composer state: the text input's value and the global
`pendingImages` list of staged data URLs. -/
structure ComposerState where
  inputValue : String
  pendingImages : List String
deriving DecidableEq

/-- What the head of `send` decides to do. -/
inductive SendAction where
  | noop
  | submit (message : String) (images : Option (List String))
deriving DecidableEq

/-- The submission guard and staging step at the top of `send`
(app.js lines 142–152): trim the input; with empty text and no pending
images, return without doing anything; otherwise encode every pending
image for the request body (`images` omitted when empty), clear the
input and the pending list. -/
def send (c : ComposerState) : SendAction × ComposerState :=
  let text := jsTrim c.inputValue
  if text = "" ∧ c.pendingImages = [] then (SendAction.noop, c)
  else
    let imagesForRequest := c.pendingImages.map dataUrlToBase64
    (SendAction.submit text
      (if imagesForRequest.isEmpty then none else some imagesForRequest),
     { inputValue := "", pendingImages := [] })

/-- The generated images rendered after the stream ends (app.js lines
313–323): one `<img>` whose `src` prefers the path over the inline
base64 payload, or nothing when neither was stored. -/
def renderedGeneratedImages (s : SessionState) : List String :=
  if strTruthy s.generatedImagePath || strTruthy s.generatedImageBase64 then
    [if strTruthy s.generatedImagePath then s.generatedImagePath.getD ""
     else "data:image/png;base64," ++ s.generatedImageBase64.getD ""]
  else []

/-- A minimal stand-in for the platform's `JSON.parse` used to
instantiate parse-parameterised theorems on concrete frames: it
recognises a single fixed payload and rejects everything else. -/
def demoParse : String → Option EventRecord := fun str =>
  if str = "tokenhi" then some { token := some "hi" } else none

/-! ## Sanity checks on concrete inputs (spec §8 scenarios) -/

example :
    (runSession [{ thinking := some "a" }, { token := some "X" },
                 { token := some "Y" }]).fullText = "XY" := by decide

example :
    (runSession [{ token := some "X" }, { token := some "Y" },
                 { done := some (Json.bool true), final := some "F" }]).fullText
      = "F" := by decide

example :
    (runSession [{ token := some "x" }, { thinking := some "a" }]).hasAnyThinking
      = false := by decide

example : splitFrames "a\n\nb".data = (["a".data], "b".data) := by decide
example : splitFrames "a\n\n\nb".data = (["a".data], "\nb".data) := by decide
example : splitFrames "\n\n\n".data = ([[]], "\n".data) := by decide
example :
    decodeStream ["data: x\n".data, "\ndata: y\n\n".data]
      = (["data: x".data, "data: y".data], []) := by decide

/-! ## Frame Decoder lemmas and claim C1 -/

/-- A buffer that produced no complete frame is retained whole: when
`splitFrames` emits no frame, the trailing fragment is the input. -/
theorem splitFrames_no_frame_eq {x : List Char} (h : (splitFrames x).1 = []) :
    (splitFrames x).2 = x := by
  induction x using splitFrames.induct with
  | case1 => simp [splitFrames]
  | case2 rest ih =>
      rw [splitFrames.eq_2] at h
      simp at h
  | case3 c rest hne ih =>
      rw [splitFrames.eq_3 c rest hne] at h ⊢
      revert ih h
      rcases hF : splitFrames rest with ⟨fs, t⟩
      intro ih h
      cases fs with
      | nil =>
          simp only [consFrame] at h ⊢
          rw [show t = rest from ih rfl]
      | cons f fs' => simp [consFrame] at h

/-- Streaming correctness of the greedy separator split: splitting
`x ++ y` emits the frames of `x` followed by the frames obtained by
re-splitting `x`'s retained tail extended with `y`. -/
theorem splitFrames_append (x y : List Char) :
    splitFrames (x ++ y) =
      ((splitFrames x).1 ++ (splitFrames ((splitFrames x).2 ++ y)).1,
       (splitFrames ((splitFrames x).2 ++ y)).2) := by
  induction x using splitFrames.induct generalizing y with
  | case1 => simp [splitFrames]
  | case2 rest ih =>
      simp only [List.cons_append, splitFrames.eq_2]
      rw [ih]
  | case3 c rest hne ih =>
      cases rest with
      | nil =>
          rw [splitFrames.eq_3 c [] (by intro r1 hc hr; cases hr)]
          simp [splitFrames, consFrame]
      | cons r rs =>
          have hcr : ¬(c = '\n' ∧ r = '\n') := by
            rintro ⟨h1, h2⟩
            exact hne rs h1 (by rw [h2])
          have cond1 : ∀ (r1 : List Char), c = '\n' → r :: rs = '\n' :: r1 → False := by
            intro r1 hc hrr
            injection hrr with ha hb
            exact hcr ⟨hc, ha⟩
          have cond2 : ∀ (r1 : List Char), c = '\n' → r :: (rs ++ y) = '\n' :: r1 → False := by
            intro r1 hc hrr
            injection hrr with ha hb
            exact hcr ⟨hc, ha⟩
          simp only [List.cons_append]
          rw [splitFrames.eq_3 c (r :: (rs ++ y)) cond2,
            splitFrames.eq_3 c (r :: rs) cond1]
          have ihy := ih y
          simp only [List.cons_append] at ihy
          rw [ihy]
          rcases hF : splitFrames (r :: rs) with ⟨fs, t⟩
          cases fs with
          | nil =>
              have ht : t = r :: rs := by
                have := splitFrames_no_frame_eq (x := r :: rs) (by rw [hF])
                rw [hF] at this
                exact this
              simp only [consFrame, List.nil_append, ht]
              simp only [List.cons_append]
              rw [splitFrames.eq_3 c (r :: (rs ++ y)) cond2]
              rcases splitFrames (r :: (rs ++ y)) with ⟨gs, u⟩
              rfl
          | cons f fs' =>
              simp [consFrame]

/-- Feeding any chunk sequence through the decoder is the same as a
single split of the concatenated bytes. -/
theorem decodeStream_eq_splitFrames (chunks : List (List Char)) :
    decodeStream chunks = splitFrames chunks.flatten := by
  induction chunks using List.reverseRecOn with
  | nil => simp [decodeStream, splitFrames]
  | append_singleton l c ih =>
      rw [decodeStream, List.foldl_append]
      show feedChunk (decodeStream l) c = _
      rw [ih, feedChunk]
      rw [← splitFrames_append]
      simp

/-- C1: for every byte sequence and every way of splitting it into
successive chunks (including splits in the middle of the blank-line
frame separator), feeding the chunks to the Frame Decoder one at a time
yields the same ordered list of complete frames as feeding the whole
sequence as one chunk, and the same retained trailing partial frame in
the buffer. -/
theorem frame_decoder_chunking_invariance (chunks : List (List Char)) :
    decodeStream chunks = decodeStream [chunks.flatten] := by
  rw [decodeStream_eq_splitFrames, decodeStream_eq_splitFrames]
  simp

/-! ## Stream Session step lemmas -/

/-- A record the chain classifies as nothing leaves the state alone. -/
theorem processEvent_unclassified {e : EventRecord} (s : SessionState)
    (h1 : jsTruthyOpt e.searching = false) (h2 : e.thinking = none)
    (h3 : e.token = none) (h4 : jsTruthyOpt e.done = false) :
    processEvent s e = s := by
  simp [processEvent, h1, h2, h3, h4]

/-- The effect of a `token`-classified record, split by phase. -/
theorem processEvent_token {e : EventRecord} (s : SessionState) (t : String)
    (h1 : jsTruthyOpt e.searching = false) (h2 : e.thinking = none)
    (h3 : e.token = some t) :
    processEvent s e =
      (if s.showingThinking then
        { s with showingThinking := false, thinkingCollapsed := true,
                 responseVisible := true, fullText := t }
      else
        { s with responseVisible := true, fullText := s.fullText ++ t }) := by
  simp [processEvent, h1, h2, h3]

/-- The done branch never touches `showingThinking`. -/
theorem doneStep_showingThinking (s : SessionState) (e : EventRecord) :
    (doneStep s e).showingThinking = s.showingThinking := by
  unfold doneStep
  cases hf : e.final <;> cases hir : e.image_result <;>
    simp [hf, hir] <;> split_ifs <;> rfl

/-- The done branch never touches `hasAnyThinking`. -/
theorem doneStep_hasAnyThinking (s : SessionState) (e : EventRecord) :
    (doneStep s e).hasAnyThinking = s.hasAnyThinking := by
  unfold doneStep
  cases hf : e.final <;> cases hir : e.image_result <;>
    simp [hf, hir] <;> split_ifs <;> rfl

/-- The done branch overwrites `fullText` with `final` exactly when
`final` is present. -/
theorem doneStep_fullText (s : SessionState) (e : EventRecord) :
    (doneStep s e).fullText = e.final.getD s.fullText := by
  unfold doneStep
  cases hf : e.final <;> cases hir : e.image_result <;>
    simp [hf, hir] <;> split_ifs <;> rfl

/-- The done branch hides the thinking section exactly when nothing
thinking-related was ever recorded. -/
theorem doneStep_thinkingHidden (s : SessionState) (e : EventRecord) :
    (doneStep s e).thinkingHidden =
      (if s.hasAnyThinking then s.thinkingHidden else true) := by
  unfold doneStep
  cases hf : e.final <;> cases hir : e.image_result <;>
    cases hh : s.hasAnyThinking <;>
      simp [hf, hir, hh] <;> split_ifs <;> simp_all

/-- How the done branch stores the generated-image path: only from a
truthy `generated_image_path` field. -/
theorem doneStep_generatedImagePath (s : SessionState) (e : EventRecord) :
    (doneStep s e).generatedImagePath =
      (match e.image_result with
       | some ir =>
           if strTruthy ir.generated_image_path then ir.generated_image_path
           else s.generatedImagePath
       | none => s.generatedImagePath) := by
  unfold doneStep
  cases hf : e.final <;> cases hir : e.image_result <;>
    simp [hf, hir] <;> split_ifs <;> rfl

/-- How the done branch stores the inline base64 payload: only when the
path field is not truthy. -/
theorem doneStep_generatedImageBase64 (s : SessionState) (e : EventRecord) :
    (doneStep s e).generatedImageBase64 =
      (match e.image_result with
       | some ir =>
           if strTruthy ir.generated_image_path then s.generatedImageBase64
           else if strTruthy ir.image_base64 then ir.image_base64
           else s.generatedImageBase64
       | none => s.generatedImageBase64) := by
  unfold doneStep
  cases hf : e.final <;> cases hir : e.image_result <;>
    simp [hf, hir] <;> split_ifs <;> rfl

/-- Only the first `token` branch changes `showingThinking`: it goes to
`false` exactly when a token-classified record arrives, and never comes
back. -/
theorem processEvent_showingThinking (s : SessionState) (e : EventRecord) :
    (processEvent s e).showingThinking = (s.showingThinking && !isTokenEv e) := by
  unfold processEvent isTokenEv
  cases hs : jsTruthyOpt e.searching <;>
    cases hth : e.thinking <;>
      cases htok : e.token <;>
        cases hd : jsTruthyOpt e.done <;>
          cases hshow : s.showingThinking <;>
            simp [hs, hth, htok, hd, hshow, doneStep_showingThinking]

/-- How one step updates `hasAnyThinking`: any `searching` record sets
it, a `thinking` record sets it only while `showingThinking` holds, and
nothing else touches it. -/
theorem processEvent_hasAnyThinking (s : SessionState) (e : EventRecord) :
    (processEvent s e).hasAnyThinking =
      (s.hasAnyThinking || isSearchingEv e || (s.showingThinking && isThinkingEv e)) := by
  unfold processEvent isSearchingEv isThinkingEv
  cases hs : jsTruthyOpt e.searching <;>
    cases hth : e.thinking <;>
      cases htok : e.token <;>
        cases hd : jsTruthyOpt e.done <;>
          cases hshow : s.showingThinking <;>
            cases hh : s.hasAnyThinking <;>
              simp [hs, hth, htok, hd, hshow, hh, doneStep_hasAnyThinking]

/-! ## Claim C2: token reset-then-append semantics -/

/-- C2: a `Token` event processed while `showingThinking` still holds
(the ThinkingVisible phase) sets `fullText` (`accumulatedText`) to
exactly the token's text, replacing any prior content; a `Token` event
processed after the phase has left ThinkingVisible (`showingThinking`
false, the Responding phase) appends its text to `fullText`. -/
theorem token_resets_in_thinking_appends_in_responding
    (s : SessionState) (e : EventRecord) (t : String)
    (h1 : jsTruthyOpt e.searching = false) (h2 : e.thinking = none)
    (h3 : e.token = some t) :
    (s.showingThinking = true → (processEvent s e).fullText = t) ∧
    (s.showingThinking = false → (processEvent s e).fullText = s.fullText ++ t) := by
  rw [processEvent_token s t h1 h2 h3]
  constructor <;> intro h <;> simp [h]

/-- Witness for C2 at concrete inputs: a first token replaces, a later
token appends. -/
theorem token_resets_in_thinking_appends_in_responding_witness :
    (processEvent initState { token := some "Hel" }).fullText = "Hel" ∧
    (processEvent { initState with showingThinking := false, fullText := "Hel" }
        { token := some "lo" }).fullText = "Hel" ++ "lo" :=
  ⟨(token_resets_in_thinking_appends_in_responding initState
      { token := some "Hel" } "Hel" rfl rfl rfl).1 rfl,
   (token_resets_in_thinking_appends_in_responding
      { initState with showingThinking := false, fullText := "Hel" }
      { token := some "lo" } "lo" rfl rfl rfl).2 rfl⟩

/-! ## Claim C4: `Done.final` overwrites -/

/-- C4: when the terminal record of a session is classified as `done`
and carries a `final` field, the session's final `fullText` — the text
rendered at the end of the stream — is exactly that `final` value, no
matter what any earlier events (in particular `token` events) left in
`fullText`. -/
theorem done_final_overwrites_accumulated
    (pre : List EventRecord) (e : EventRecord) (f : String)
    (h1 : jsTruthyOpt e.searching = false) (h2 : e.thinking = none)
    (h3 : e.token = none) (h4 : jsTruthyOpt e.done = true)
    (hf : e.final = some f) :
    (runSession (pre ++ [e])).fullText = f := by
  rw [runSession, List.foldl_append, List.foldl_cons, List.foldl_nil]
  have : processEvent (List.foldl processEvent initState pre) e
      = doneStep (List.foldl processEvent initState pre) e := by
    simp [processEvent, h1, h2, h3, h4]
  rw [this, doneStep_fullText, hf]
  rfl

/-- Witness for C4: two tokens accumulate "XY" but `final := "Z"` wins. -/
theorem done_final_overwrites_accumulated_witness :
    (runSession [{ token := some "X" }, { token := some "Y" },
        { done := some (Json.bool true), final := some "Z" }]).fullText = "Z" :=
  done_final_overwrites_accumulated
    [{ token := some "X" }, { token := some "Y" }]
    { done := some (Json.bool true), final := some "Z" } "Z" rfl rfl rfl rfl rfl

/-! ## Claim C5: classifier precedence -/

/-- The monolithic branch chain of the read loop is exactly the spec's
factored view: classify the record, then apply the classified event;
an unclassified record leaves the state unchanged. -/
theorem processEvent_eq_classify_apply (s : SessionState) (e : EventRecord) :
    processEvent s e = (classify e).elim s (applyEvent s) := by
  unfold processEvent classify applyEvent doneStep
  cases hs : jsTruthyOpt e.searching <;>
    cases hth : e.thinking <;>
      cases htok : e.token <;>
        cases hd : jsTruthyOpt e.done <;>
          simp [hs, hth, htok, hd]

/-- C5: the Event Classifier selects exactly one `StreamEvent` variant
by field presence in precedence order — `searching` truthy wins over
everything, else a present `thinking` field (empty string included),
else a present `token` field, else truthy `done`; a record with none of
these fields produces no event, and processing it leaves the session
state unchanged.  The loop body processes every record exactly as this
classify-then-apply factoring. -/
theorem event_classifier_precedence (e : EventRecord) (s : SessionState) :
    (processEvent s e = (classify e).elim s (applyEvent s))
    ∧ (jsTruthyOpt e.searching = true → classify e = some StreamEvent.searching)
    ∧ (jsTruthyOpt e.searching = false → ∀ d, e.thinking = some d →
        classify e = some (StreamEvent.thinking d))
    ∧ (jsTruthyOpt e.searching = false → e.thinking = none → ∀ t, e.token = some t →
        classify e = some (StreamEvent.token t))
    ∧ (jsTruthyOpt e.searching = false → e.thinking = none → e.token = none →
        jsTruthyOpt e.done = true →
        classify e = some (StreamEvent.done e.final (jsTruthyOpt e.error)
          (e.sources.getD []) e.image_result e.user_timestamp e.assistant_timestamp))
    ∧ (jsTruthyOpt e.searching = false → e.thinking = none → e.token = none →
        jsTruthyOpt e.done = false → classify e = none ∧ processEvent s e = s) := by
  refine ⟨processEvent_eq_classify_apply s e, ?_, ?_, ?_, ?_, ?_⟩
  · intro h
    simp [classify, h]
  · intro h d hd
    simp [classify, h, hd]
  · intro h hth t ht
    simp [classify, h, hth, ht]
  · intro h hth ht hd
    simp [classify, h, hth, ht, hd]
  · intro h hth ht hd
    exact ⟨by simp [classify, h, hth, ht, hd],
           processEvent_unclassified s h hth ht hd⟩

/-- Witness for C5: `searching` shadows a present `token`; an empty
`thinking` string still classifies as Thinking; an empty record is
ignored. -/
theorem event_classifier_precedence_witness :
    classify { searching := some (Json.bool true), token := some "x" }
      = some StreamEvent.searching
    ∧ classify { thinking := some "", token := some "x" }
      = some (StreamEvent.thinking "")
    ∧ classify {} = none ∧ processEvent initState {} = initState :=
  ⟨(event_classifier_precedence
      { searching := some (Json.bool true), token := some "x" } initState).2.1 rfl,
   (event_classifier_precedence
      { thinking := some "", token := some "x" } initState).2.2.1 rfl "" rfl,
   (event_classifier_precedence {} initState).2.2.2.2.2 rfl rfl rfl rfl⟩

/-! ## Claim C3: sawAnyThinking and final visibility -/

/-- Non-done records never touch `thinkingHidden`: only the done branch
can hide the thinking section. -/
theorem processEvent_thinkingHidden_of_not_done (s : SessionState)
    (e : EventRecord) (he : isDoneEv e = false) :
    (processEvent s e).thinkingHidden = s.thinkingHidden := by
  unfold processEvent
  unfold isDoneEv at he
  cases hs : jsTruthyOpt e.searching <;>
    cases hth : e.thinking <;>
      cases htok : e.token <;>
        cases hd : jsTruthyOpt e.done <;>
          cases hshow : s.showingThinking <;>
            simp_all

/-- Closed form of `hasAnyThinking` after a fold: it records any
searching event, plus any thinking event that arrived before the first
token event (i.e. while `showingThinking` still held). -/
theorem foldl_hasAnyThinking (evs : List EventRecord) (s : SessionState) :
    (List.foldl processEvent s evs).hasAnyThinking
      = (s.hasAnyThinking || evs.any isSearchingEv
         || (s.showingThinking
             && (evs.takeWhile (fun e => !isTokenEv e)).any isThinkingEv)) := by
  induction evs generalizing s with
  | nil => simp
  | cons e rest ih =>
      rw [List.foldl_cons, ih, processEvent_hasAnyThinking,
        processEvent_showingThinking]
      cases hs : jsTruthyOpt e.searching <;>
        cases hth : e.thinking <;>
          cases htok : e.token <;>
            simp [isSearchingEv, isThinkingEv, isTokenEv, hs, hth, htok,
              List.takeWhile_cons] <;>
              cases s.hasAnyThinking <;> cases s.showingThinking <;> simp

/-- `thinkingHidden` survives any prefix with no done record. -/
theorem foldl_thinkingHidden_of_no_done (evs : List EventRecord)
    (s : SessionState) (h : ∀ e ∈ evs, isDoneEv e = false) :
    (List.foldl processEvent s evs).thinkingHidden = s.thinkingHidden := by
  induction evs generalizing s with
  | nil => rfl
  | cons e rest ih =>
      rw [List.foldl_cons, ih _ (fun x hx => h x (List.mem_cons_of_mem e hx)),
        processEvent_thinkingHidden_of_not_done s e (h e (List.mem_cons_self e rest))]

/-- C3 (amended): at the end of a session whose event list consists of
non-done records followed by one terminal done record, `hasAnyThinking`
(`sawAnyThinking`) is true iff a `searching` event occurred anywhere or
a `thinking` event occurred before the first `token` event (i.e. while
the session was still in the ThinkingVisible phase); and the thinking
region's final visibility equals `sawAnyThinking` (it is hidden exactly
when `sawAnyThinking` is false).  A `thinking` event arriving after the
first token does not count, which is what blocks the claim as stated. -/
theorem sawAnyThinking_characterization_and_visibility
    (pre : List EventRecord) (d : EventRecord)
    (hd : isDoneEv d = true) (hpre : ∀ e ∈ pre, isDoneEv e = false) :
    ((runSession (pre ++ [d])).hasAnyThinking
        = ((pre ++ [d]).any isSearchingEv
           || ((pre ++ [d]).takeWhile (fun e => !isTokenEv e)).any isThinkingEv))
    ∧ ((runSession (pre ++ [d])).thinkingHidden
        = !(runSession (pre ++ [d])).hasAnyThinking) := by
  have hcomp := hd
  simp only [isDoneEv, Bool.and_eq_true, Bool.not_eq_true',
    Option.isNone_iff_eq_none] at hcomp
  obtain ⟨⟨⟨h1, h2⟩, h3⟩, h4⟩ := hcomp
  have hfold : runSession (pre ++ [d]) = processEvent (runSession pre) d := by
    rw [runSession, List.foldl_append, List.foldl_cons, List.foldl_nil]
    rfl
  have hstep : processEvent (runSession pre) d = doneStep (runSession pre) d := by
    simp [processEvent, h1, h2, h3, h4]
  constructor
  · rw [runSession, foldl_hasAnyThinking]
    simp [initState]
  · rw [hfold, hstep, doneStep_thinkingHidden, doneStep_hasAnyThinking]
    have hh : (runSession pre).thinkingHidden = false :=
      foldl_thinkingHidden_of_no_done pre initState hpre
    rw [hh]
    cases (runSession pre).hasAnyThinking <;> simp

/-- Witness for C3 (amended) on the spec §8 scenario: thinking then
tokens then done — `sawAnyThinking` ends true and the region stays
visible. -/
theorem sawAnyThinking_characterization_and_visibility_witness :
    ((runSession ([{ thinking := some "a" }, { token := some "X" }]
        ++ [{ done := some (Json.bool true) }])).hasAnyThinking = true)
    ∧ ((runSession ([{ thinking := some "a" }, { token := some "X" }]
        ++ [{ done := some (Json.bool true) }])).thinkingHidden = false) := by
  have h := sawAnyThinking_characterization_and_visibility
    [{ thinking := some "a" }, { token := some "X" }]
    { done := some (Json.bool true) } rfl
    (by intro e he; fin_cases he <;> rfl)
  obtain ⟨h1, h2⟩ := h
  refine ⟨?_, ?_⟩
  · rw [h1]
    decide
  · rw [h2, h1]
    decide

/-- Counterexample to C3 as stated: in the session
`[Token "x", Thinking "a"]` a `Thinking` event occurs, yet
`sawAnyThinking` ends false (the thinking delta arrived after the phase
left ThinkingVisible); moreover the thinking region is still visible
(`thinkingHidden = false`) although `sawAnyThinking` is false, so the
final visibility does not equal `sawAnyThinking` either. -/
theorem sawAnyThinking_iff_counterexample :
    ((runSession [{ token := some "x" }, { thinking := some "a" }]).hasAnyThinking
        = false)
    ∧ (([{ token := some "x" }, { thinking := some "a" }] : List EventRecord).any
        (fun e => isSearchingEv e || isThinkingEv e) = true)
    ∧ ((runSession [{ token := some "x" }, { thinking := some "a" }]).thinkingHidden
        = false) := by
  decide

/-! ## Claim C6: accumulatedText after Finished -/

/-- The only steps that write `fullText` are a token-classified record
and a done-classified record carrying `final`. -/
theorem processEvent_fullText_of_no_writer (s : SessionState)
    (e : EventRecord) (ht : isTokenEv e = false)
    (hd : isDoneEv e = true → e.final = none) :
    (processEvent s e).fullText = s.fullText := by
  unfold processEvent
  unfold isTokenEv at ht
  unfold isDoneEv at hd
  cases hs : jsTruthyOpt e.searching <;>
    cases hth : e.thinking <;>
      cases htok : e.token <;>
        cases hdn : jsTruthyOpt e.done <;>
          cases hshow : s.showingThinking <;>
            simp_all [doneStep_fullText]

/-- `fullText` is unchanged over any event-list fold that contains no
token record and no `final`-carrying done record. -/
theorem foldl_fullText_of_no_writer (suf : List EventRecord) (s : SessionState)
    (h : ∀ e ∈ suf, isTokenEv e = false ∧ (isDoneEv e = true → e.final = none)) :
    (List.foldl processEvent s suf).fullText = s.fullText := by
  induction suf generalizing s with
  | nil => rfl
  | cons e rest ih =>
      rw [List.foldl_cons, ih _ (fun x hx => h x (List.mem_cons_of_mem e hx)),
        processEvent_fullText_of_no_writer s e (h e (List.mem_cons_self e rest)).1
          (h e (List.mem_cons_self e rest)).2]

/-- C6 (amended): after the session's phase becomes Finished (the first
done record), `accumulatedText` is preserved by every further
`Searching`, `Thinking` and unclassified record; it is mutated only if
a further `Token` record or a further `final`-carrying done record
arrives after the first done, because the loop applies the same branch
chain to every record with no finished-guard.  Stated generally: over
any suffix containing no token record and no `final`-carrying done
record, `fullText` is unchanged — in particular over any suffix
following a terminal done record. -/
theorem accumulatedText_stable_after_finished
    (pre suf : List EventRecord)
    (h : ∀ e ∈ suf, isTokenEv e = false ∧ (isDoneEv e = true → e.final = none)) :
    (runSession (pre ++ suf)).fullText = (runSession pre).fullText := by
  rw [runSession, runSession, List.foldl_append]
  exact foldl_fullText_of_no_writer suf _ h

/-- Witness for C6 (amended): after `[Token "x", Done]`, a further
searching record and a further thinking record leave `fullText` at
"x". -/
theorem accumulatedText_stable_after_finished_witness :
    (runSession ([{ token := some "x" }, { done := some (Json.bool true) }]
        ++ [{ searching := some (Json.bool true) }, { thinking := some "a" }])).fullText
      = (runSession [{ token := some "x" },
          { done := some (Json.bool true) }]).fullText :=
  accumulatedText_stable_after_finished
    [{ token := some "x" }, { done := some (Json.bool true) }]
    [{ searching := some (Json.bool true) }, { thinking := some "a" }]
    (by intro e he; fin_cases he <;> exact ⟨rfl, by intro h; cases h⟩)

/-- Counterexample to C6 as stated: the first record is done-classified
(phase becomes Finished, `fullText` is "" there), yet a later token
record mutates `fullText` to "x" — the loop has no finished-guard. -/
theorem accumulatedText_mutated_after_finished_counterexample :
    isDoneEv { done := some (Json.bool true) } = true
    ∧ (runSession [{ done := some (Json.bool true) }]).fullText = ""
    ∧ (runSession [{ done := some (Json.bool true) },
        { token := some "x" }]).fullText = "x" := by
  decide

/-! ## Claim C7: malformed frames are skipped, the stream continues -/

/-- C7: a frame whose payload fails to parse (the `JSON.parse` call
throws, caught and logged by the `try/catch`) contributes nothing to
the session state, and every frame after it is processed exactly as if
the bad frame had not been there: processing the stream with the bad
frame equals processing the stream without it, for every parse
function, session state and surrounding frames.  In particular the
session is not aborted and runs to the end of the frame list. -/
theorem malformed_frame_skipped (parse : String → Option EventRecord)
    (s : SessionState) (pre post : List String) (bad : String)
    (hbad : (parse ⟨(jsTrim bad).data.drop 6⟩).isNone = true) :
    processFrames parse s (pre ++ bad :: post)
      = processFrames parse s (pre ++ post) := by
  rw [processFrames, processFrames, List.foldl_append, List.foldl_append,
    List.foldl_cons]
  rw [Option.isNone_iff_eq_none] at hbad
  have : processFrame parse (List.foldl (processFrame parse) s pre) bad
      = List.foldl (processFrame parse) s pre := by
    by_cases hs : (jsTrim bad).data.take 6 = "data: ".data <;>
      simp [processFrame, hs, hbad]
  rw [this]

/-- Witness for C7: with a demo parse function, the malformed frame
`"data: not json"` between two valid frames changes nothing — both
sides process the surrounding valid frames. -/
theorem malformed_frame_skipped_witness :
    processFrames demoParse initState
        (["data: tokenhi"] ++ "data: not json" :: ["data: tokenhi"])
      = processFrames demoParse initState (["data: tokenhi"] ++ ["data: tokenhi"]) :=
  malformed_frame_skipped demoParse initState
    ["data: tokenhi"] ["data: tokenhi"] "data: not json" (by decide)

/-! ## Claim C8: idempotent timestamp binding -/

/-- C8: binding a server-issued timestamp to a rendered message entry
is idempotent — on an entry with no deletion affordance, a truthy
timestamp attaches exactly one remove button, and any later bind
attempt on the same entry (any timestamp) is a no-op because the
existing `.message-remove` button is detected, so no duplicate
affordance is ever created. -/
theorem addRemoveButton_idempotent (el : MsgEl) (t t' : Json)
    (ht : jsTruthy t = true) (h0 : el.removeButtons = []) :
    (addRemoveButton el t).removeButtons = [t]
    ∧ addRemoveButton (addRemoveButton el t) t' = addRemoveButton el t := by
  constructor
  · simp [addRemoveButton, ht, h0]
  · simp [addRemoveButton, ht, h0]

/-- Witness for C8: binding `"t1"` then attempting `"t2"` leaves one
remove button for `"t1"`. -/
theorem addRemoveButton_idempotent_witness :
    (addRemoveButton {} (Json.str "t1")).removeButtons = [Json.str "t1"]
    ∧ addRemoveButton (addRemoveButton {} (Json.str "t1")) (Json.str "t2")
      = addRemoveButton {} (Json.str "t1") :=
  addRemoveButton_idempotent {} (Json.str "t1") (Json.str "t2") rfl rfl

/-! ## Claim C9: submission guard and attachment staging -/

/-- C9: a submission with empty trimmed text and no pending attachments
is a no-op — no transport request is formed and the composer state is
unchanged; any other submission encodes the entire pending list in
order for the request body (the `images` field is omitted when the list
is empty) and clears both the input and the pending list before the
exchange proceeds. -/
theorem send_guard_and_staging (c : ComposerState) :
    (jsTrim c.inputValue = "" ∧ c.pendingImages = [] →
      send c = (SendAction.noop, c))
    ∧ (¬(jsTrim c.inputValue = "" ∧ c.pendingImages = []) →
      send c = (SendAction.submit (jsTrim c.inputValue)
          (if (c.pendingImages.map dataUrlToBase64).isEmpty then none
           else some (c.pendingImages.map dataUrlToBase64)),
        { inputValue := "", pendingImages := [] })) := by
  constructor <;> intro h
  · rw [send]
    simp only [h.1, h.2]
    rfl
  · rw [send]
    rw [if_neg h]

/-- Witness for C9: whitespace-only text with no attachments is a
no-op; text plus one staged data URL submits the encoded image and
clears the pending list. -/
theorem send_guard_and_staging_witness :
    send { inputValue := "  ", pendingImages := [] }
      = (SendAction.noop, { inputValue := "  ", pendingImages := [] })
    ∧ send { inputValue := " hi ", pendingImages := ["data:image/jpeg;base64,QUJD"] }
      = (SendAction.submit "hi" (some ["QUJD"]),
         { inputValue := "", pendingImages := [] }) := by
  refine ⟨(send_guard_and_staging _).1 (by decide), ?_⟩
  rw [(send_guard_and_staging _).2 (by decide)]
  decide

/-! ## Claim C10: generated-image reference precedence -/

/-- C10: when a done record's `image_result` carries both a (truthy)
`generated_image_path` and an `image_base64`, only the path is stored
and the inline base64 payload is ignored; the base64 slot keeps its
previous value (`none` when the session had no earlier image), and the
post-stream rendering produces at most one generated image — whose
source is the path whenever the path is stored. -/
theorem image_result_path_precedence (s : SessionState) (e : EventRecord)
    (ir : ImageResult) (p b : String)
    (h1 : jsTruthyOpt e.searching = false) (h2 : e.thinking = none)
    (h3 : e.token = none) (h4 : jsTruthyOpt e.done = true)
    (hir : e.image_result = some ir)
    (hp : ir.generated_image_path = some p) (hptruthy : p ≠ "")
    (hb : ir.image_base64 = some b) :
    (processEvent s e).generatedImagePath = some p
    ∧ (processEvent s e).generatedImageBase64 = s.generatedImageBase64
    ∧ (s.generatedImageBase64 = none →
        renderedGeneratedImages (processEvent s e) = [p])
    ∧ (∀ s' : SessionState, (renderedGeneratedImages s').length ≤ 1) := by
  have hstep : processEvent s e = doneStep s e := by
    simp [processEvent, h1, h2, h3, h4]
  have htr : strTruthy ir.generated_image_path = true := by
    simp [strTruthy, hp, hptruthy]
  have hpath : (doneStep s e).generatedImagePath = some p := by
    rw [doneStep_generatedImagePath, hir]
    simp [hp, strTruthy, hptruthy]
  have hb64 : (doneStep s e).generatedImageBase64 = s.generatedImageBase64 := by
    rw [doneStep_generatedImageBase64, hir]
    simp [htr]
  refine ⟨hstep ▸ hpath, hstep ▸ hb64, ?_, ?_⟩
  · intro hnone
    rw [hstep]
    unfold renderedGeneratedImages
    rw [hpath, hb64, hnone]
    simp [strTruthy, hptruthy]
  · intro s'
    unfold renderedGeneratedImages
    split <;> simp

/-- Witness for C10: a done record whose `image_result` carries both
fields stores only the path, and the rendered output is that single
path. -/
theorem image_result_path_precedence_witness :
    (processEvent initState
        { done := some (Json.bool true),
          image_result := some { generated_image_path := some "gen.png",
                                 image_base64 := some "QUJD" } }).generatedImagePath
      = some "gen.png"
    ∧ renderedGeneratedImages (processEvent initState
        { done := some (Json.bool true),
          image_result := some { generated_image_path := some "gen.png",
                                 image_base64 := some "QUJD" } }) = ["gen.png"] := by
  have h := image_result_path_precedence initState
    { done := some (Json.bool true),
      image_result := some { generated_image_path := some "gen.png",
                             image_base64 := some "QUJD" } }
    { generated_image_path := some "gen.png", image_base64 := some "QUJD" }
    "gen.png" "QUJD" rfl rfl rfl rfl rfl rfl (by decide) rfl
  exact ⟨h.1, h.2.2.1 rfl⟩
